import Mathlib

/-!
Verification of the keyword-matching and deduplication engine of the
arxiv_alert repository (`search.py`), together with its seen-set
persistence helpers (`load_sent_papers`, `save_sent_papers`).

The Python source is shallowly embedded: papers become a structure,
Python's substring test `needle in haystack` becomes an executable scan
over character lists, the imperative accumulation loop of
`search_papers` becomes a `List.foldl`, and the JSON file handling of
the persistence helpers is modelled over an explicit file-state type.
-/

/-- A paper record as produced by `arxiv_api.fetch_papers`; only the
fields read by `search.py` are kept (`id`, `title`, `abstract`). -/
structure Paper where
  id : String
  title : String
  abstract : String
deriving DecidableEq, Repr

/-- Executable model of Python's substring test `needle in haystack`
on character lists: some drop of the haystack starts with the needle.
As in Python, the empty needle is contained in every haystack. -/
def listHasSub (haystack needle : List Char) : Bool :=
  (List.range (haystack.length + 1)).any fun i =>
    (haystack.drop i).take needle.length == needle

/-- Python's `needle in haystack` on strings. -/
def strContains (haystack needle : String) : Bool :=
  listHasSub haystack.toList needle.toList

/-- Python's `str.lower()`: lower-case every character (the per-character
map that `String.toLower` also performs, written over the character list
so that it evaluates by kernel reduction). -/
def strLower (s : String) : String :=
  String.mk (s.toList.map Char.toLower)

/-- The searchable text built by `search_papers` (src/search.py lines
86-90): the lower-cased title followed by a space when `search_title`,
then the lower-cased abstract when `search_abstract`. -/
def searchTextOf (paper : Paper) (search_title search_abstract : Bool) : String :=
  (if search_title then strLower paper.title ++ " " else "")
    ++ (if search_abstract then strLower paper.abstract else "")

/-- `search_papers` from src/search.py (lines 55-108), embedded as a
fold over the input papers carrying the `matched_papers` accumulator.
Per paper, in input order: skip it when its id is in `sent_papers`;
skip it when both scope flags are false; otherwise build the searchable
text and append the paper when some keyword group has every keyword's
lower-casing contained in that text. -/
def search_papers (papers : List Paper) (keyword_groups : List (List String))
    (search_title search_abstract : Bool) (sent_papers : Finset String) : List Paper :=
  papers.foldl (fun matched_papers paper =>
    if paper.id ∈ sent_papers then
      matched_papers
    else if !search_title && !search_abstract then
      matched_papers
    else
      let search_text := searchTextOf paper search_title search_abstract
      if keyword_groups.any fun keyword_group =>
          keyword_group.all fun keyword => strContains search_text (strLower keyword) then
        matched_papers ++ [paper]
      else
        matched_papers) []

/-- The per-paper decision of `search_papers`, extracted as a boolean
predicate: not previously sent, at least one scope flag on, and some
keyword group fully contained in the searchable text. -/
def paperMatches (keyword_groups : List (List String))
    (search_title search_abstract : Bool) (sent_papers : Finset String)
    (paper : Paper) : Bool :=
  !(decide (paper.id ∈ sent_papers)) && (search_title || search_abstract)
    && (keyword_groups.any fun keyword_group =>
        keyword_group.all fun keyword =>
          strContains (searchTextOf paper search_title search_abstract) (strLower keyword))

/-- Spec-side substring semantics: `needle` occurs as a contiguous
substring of `haystack`. -/
def OccursAsSubstring (needle haystack : String) : Prop :=
  ∃ pre post : String, haystack = pre ++ needle ++ post

theorem listHasSub_iff (h n : List Char) :
    listHasSub h n = true ↔ ∃ pre post : List Char, h = pre ++ n ++ post := by
  unfold listHasSub
  rw [List.any_eq_true]
  constructor
  · rintro ⟨i, _, hdt⟩
    rw [beq_iff_eq] at hdt
    refine ⟨h.take i, (h.drop i).drop n.length, ?_⟩
    conv_lhs => rw [← List.take_append_drop i h]
    rw [List.append_assoc]
    congr 1
    conv_lhs => rw [← List.take_append_drop n.length (h.drop i)]
    rw [hdt]
  · rintro ⟨pre, post, rfl⟩
    refine ⟨pre.length, ?_, ?_⟩
    · rw [List.mem_range]
      simp [List.length_append]
      omega
    · rw [beq_iff_eq, List.append_assoc, List.drop_left, List.take_left]

theorem strContains_iff (h n : String) :
    strContains h n = true ↔ OccursAsSubstring n h := by
  unfold strContains OccursAsSubstring
  rw [listHasSub_iff]
  constructor
  · rintro ⟨pre, post, hsplit⟩
    refine ⟨String.mk pre, String.mk post, String.ext ?_⟩
    simpa [String.toList] using hsplit
  · rintro ⟨preS, postS, rfl⟩
    exact ⟨preS.data, postS.data, by simp [String.toList]⟩

theorem search_papers_eq_filter (papers : List Paper)
    (keyword_groups : List (List String)) (search_title search_abstract : Bool)
    (sent_papers : Finset String) :
    search_papers papers keyword_groups search_title search_abstract sent_papers
      = papers.filter (paperMatches keyword_groups search_title search_abstract sent_papers) := by
  unfold search_papers
  have hstep : (fun (matched_papers : List Paper) (paper : Paper) =>
      if paper.id ∈ sent_papers then
        matched_papers
      else if !search_title && !search_abstract then
        matched_papers
      else
        let search_text := searchTextOf paper search_title search_abstract
        if keyword_groups.any fun keyword_group =>
            keyword_group.all fun keyword => strContains search_text (strLower keyword) then
          matched_papers ++ [paper]
        else
          matched_papers)
      = fun (matched_papers : List Paper) (paper : Paper) =>
        if paperMatches keyword_groups search_title search_abstract sent_papers paper then
          matched_papers ++ [paper]
        else
          matched_papers := by
    funext matched_papers paper
    by_cases h1 : paper.id ∈ sent_papers
    · simp [paperMatches, h1]
    · by_cases h2 : (search_title || search_abstract) = true
      · simp only [Bool.or_eq_true] at h2
        by_cases h3 : (keyword_groups.any fun keyword_group =>
            keyword_group.all fun keyword =>
              strContains (searchTextOf paper search_title search_abstract)
                (strLower keyword)) = true
        · rcases h2 with h2 | h2 <;> simp_all [paperMatches]
        · rcases h2 with h2 | h2 <;> simp_all [paperMatches]
      · simp_all [paperMatches]
  rw [hstep]
  have haux : ∀ (ps : List Paper) (acc : List Paper),
      ps.foldl (fun (matched_papers : List Paper) (paper : Paper) =>
        if paperMatches keyword_groups search_title search_abstract sent_papers paper then
          matched_papers ++ [paper]
        else
          matched_papers) acc
        = acc ++ ps.filter (paperMatches keyword_groups search_title search_abstract sent_papers) := by
    intro ps
    induction ps with
    | nil => intro acc; simp
    | cons p ps ih =>
      intro acc
      rw [List.foldl_cons, ih, List.filter_cons]
      by_cases hp : paperMatches keyword_groups search_title search_abstract sent_papers p
      · simp [hp]
      · simp [hp]
  simpa using haux papers []

/-- Membership characterization of `search_papers` for a paper that
survives dedup and has a scope flag on: it is kept exactly when some
keyword group has all of its lower-cased keywords occurring as
substrings of the searchable text. -/
theorem mem_search_papers_iff (papers : List Paper)
    (keyword_groups : List (List String)) (search_title search_abstract : Bool)
    (sent_papers : Finset String) (paper : Paper)
    (hmem : paper ∈ papers) (hid : paper.id ∉ sent_papers)
    (hscope : search_title = true ∨ search_abstract = true) :
    paper ∈ search_papers papers keyword_groups search_title search_abstract sent_papers
      ↔ ∃ keyword_group ∈ keyword_groups, ∀ keyword ∈ keyword_group,
          OccursAsSubstring (strLower keyword)
            (searchTextOf paper search_title search_abstract) := by
  rw [search_papers_eq_filter, List.mem_filter]
  have hsc : (search_title || search_abstract) = true := by
    rcases hscope with h | h <;> simp [h]
  simp [paperMatches, hid, hsc, hmem, List.any_eq_true, List.all_eq_true, strContains_iff]

/-- Claim C1: for every paper in the input list whose identifier is not
in the seen set and with at least one scope flag true, `search_papers`
includes the paper in its result iff at least one keyword group has
every one of its keywords occurring, after lower-casing, as a substring
of the searchable text built from the enabled fields (OR over groups,
AND within a group). -/
theorem search_papers_match_iff_or_of_and (papers : List Paper)
    (keyword_groups : List (List String)) (search_title search_abstract : Bool)
    (sent_papers : Finset String) (paper : Paper)
    (hmem : paper ∈ papers) (hid : paper.id ∉ sent_papers)
    (hscope : search_title = true ∨ search_abstract = true) :
    paper ∈ search_papers papers keyword_groups search_title search_abstract sent_papers
      ↔ ∃ keyword_group ∈ keyword_groups, ∀ keyword ∈ keyword_group,
          OccursAsSubstring (strLower keyword)
            (searchTextOf paper search_title search_abstract) :=
  mem_search_papers_iff papers keyword_groups search_title search_abstract
    sent_papers paper hmem hid hscope

/-- Witness for C1 at the spec's scenario paper. -/
theorem search_papers_match_iff_or_of_and_witness :
    ((⟨"1", "Deep Learning for Robotics", "We study RL"⟩ : Paper)
        ∈ [(⟨"1", "Deep Learning for Robotics", "We study RL"⟩ : Paper)])
    ∧ ("1" : String) ∉ (∅ : Finset String)
    ∧ ((⟨"1", "Deep Learning for Robotics", "We study RL"⟩ : Paper)
          ∈ search_papers [⟨"1", "Deep Learning for Robotics", "We study RL"⟩]
            [["deep learning"], ["reinforcement", "robot"]] true true ∅
        ↔ ∃ keyword_group ∈ [["deep learning"], ["reinforcement", "robot"]],
            ∀ keyword ∈ keyword_group,
              OccursAsSubstring (strLower keyword)
                (searchTextOf ⟨"1", "Deep Learning for Robotics", "We study RL"⟩ true true)) :=
  ⟨by decide, by decide,
    search_papers_match_iff_or_of_and _ _ _ _ _ _ (by decide) (by decide) (Or.inl rfl)⟩

/-- Claim C2: `search_papers` never includes a paper whose identifier
is in the `sent_papers` set, regardless of the rules and scope. -/
theorem search_papers_excludes_seen (papers : List Paper)
    (keyword_groups : List (List String)) (search_title search_abstract : Bool)
    (sent_papers : Finset String) (paper : Paper)
    (hid : paper.id ∈ sent_papers) :
    paper ∉ search_papers papers keyword_groups search_title search_abstract sent_papers := by
  rw [search_papers_eq_filter]
  intro hmem
  have hp := (List.mem_filter.mp hmem).2
  simp [paperMatches, hid] at hp

/-- Witness for C2: the seen scenario paper is excluded. -/
theorem search_papers_excludes_seen_witness :
    ("1" : String) ∈ ({"1"} : Finset String)
    ∧ (⟨"1", "Deep Learning for Robotics", "We study RL"⟩ : Paper)
        ∉ search_papers [⟨"1", "Deep Learning for Robotics", "We study RL"⟩]
          [["deep learning"]] true true {"1"} :=
  ⟨by decide, search_papers_excludes_seen _ _ _ _ _ _ (by decide)⟩

/-- Claim C3: the list returned by `search_papers` is an
order-preserving subsequence of the input list. -/
theorem search_papers_sublist (papers : List Paper)
    (keyword_groups : List (List String)) (search_title search_abstract : Bool)
    (sent_papers : Finset String) :
    List.Sublist
      (search_papers papers keyword_groups search_title search_abstract sent_papers)
      papers := by
  rw [search_papers_eq_filter]
  exact List.filter_sublist papers

/-- Claim C5: with both scope flags false, `search_papers` returns the
empty list for every input and every rule set (in particular every
non-empty one). -/
theorem search_papers_no_scope_empty (papers : List Paper)
    (keyword_groups : List (List String)) (sent_papers : Finset String) :
    search_papers papers keyword_groups false false sent_papers = [] := by
  simp [search_papers_eq_filter, paperMatches]

/-- Claim C8: an empty keyword group is vacuously satisfied, so a rule
set containing one makes `search_papers` include every paper that
survives dedup and has a scope flag on. -/
theorem search_papers_empty_group_matches_all (papers : List Paper)
    (keyword_groups : List (List String)) (search_title search_abstract : Bool)
    (sent_papers : Finset String) (paper : Paper)
    (hgroup : ([] : List String) ∈ keyword_groups)
    (hmem : paper ∈ papers) (hid : paper.id ∉ sent_papers)
    (hscope : search_title = true ∨ search_abstract = true) :
    paper ∈ search_papers papers keyword_groups search_title search_abstract sent_papers := by
  rw [mem_search_papers_iff papers keyword_groups search_title search_abstract
    sent_papers paper hmem hid hscope]
  exact ⟨[], hgroup, by simp⟩

/-- Witness for C8: a paper matching no keyword at all is still
included when an empty group is present. -/
theorem search_papers_empty_group_matches_all_witness :
    ([] : List String) ∈ [(["quantum"] : List String), []]
    ∧ (⟨"2", "Graph Neural Networks", "x"⟩ : Paper)
        ∈ [(⟨"2", "Graph Neural Networks", "x"⟩ : Paper)]
    ∧ ("2" : String) ∉ (∅ : Finset String)
    ∧ (⟨"2", "Graph Neural Networks", "x"⟩ : Paper)
        ∈ search_papers [⟨"2", "Graph Neural Networks", "x"⟩] [["quantum"], []] true true ∅ :=
  ⟨by decide, by decide, by decide,
    search_papers_empty_group_matches_all _ _ _ _ _ _
      (by decide) (by decide) (by decide) (Or.inl rfl)⟩

/-- Claim C10: with an empty rule set (zero keyword groups),
`search_papers` returns the empty list for every input. -/
theorem search_papers_empty_rules_empty (papers : List Paper)
    (search_title search_abstract : Bool) (sent_papers : Finset String) :
    search_papers papers [] search_title search_abstract sent_papers = [] := by
  simp [search_papers_eq_filter, paperMatches]

/-- Two strings that differ only in letter casing: their lower-casings
agree. -/
def EqvCaseless (a b : String) : Prop :=
  strLower a = strLower b

/-- Two papers with the same identifier whose title and abstract differ
only in letter casing. -/
def PaperEqvCaseless (p q : Paper) : Prop :=
  p.id = q.id ∧ EqvCaseless p.title q.title ∧ EqvCaseless p.abstract q.abstract

instance (a b : String) : Decidable (EqvCaseless a b) :=
  inferInstanceAs (Decidable (strLower a = strLower b))

instance (p q : Paper) : Decidable (PaperEqvCaseless p q) :=
  inferInstanceAs (Decidable (p.id = q.id
    ∧ EqvCaseless p.title q.title ∧ EqvCaseless p.abstract q.abstract))

theorem searchTextOf_congr (p q : Paper) (search_title search_abstract : Bool)
    (h : PaperEqvCaseless p q) :
    searchTextOf p search_title search_abstract
      = searchTextOf q search_title search_abstract := by
  unfold searchTextOf
  rw [h.2.1, h.2.2]

theorem groupAll_congr (text : String) (g₁ g₂ : List String)
    (h : List.Forall₂ EqvCaseless g₁ g₂) :
    (g₁.all fun keyword => strContains text (strLower keyword))
      = (g₂.all fun keyword => strContains text (strLower keyword)) := by
  induction h with
  | nil => rfl
  | cons hk _ ih =>
    rw [List.all_cons, List.all_cons, hk, ih]

theorem groupsAny_congr (text : String) (kgs₁ kgs₂ : List (List String))
    (h : List.Forall₂ (List.Forall₂ EqvCaseless) kgs₁ kgs₂) :
    (kgs₁.any fun keyword_group =>
        keyword_group.all fun keyword => strContains text (strLower keyword))
      = (kgs₂.any fun keyword_group =>
        keyword_group.all fun keyword => strContains text (strLower keyword)) := by
  induction h with
  | nil => rfl
  | cons hg _ ih =>
    rw [List.any_cons, List.any_cons, groupAll_congr text _ _ hg, ih]

theorem paperMatches_congr (kgs₁ kgs₂ : List (List String))
    (search_title search_abstract : Bool) (sent_papers : Finset String) (p q : Paper)
    (hpq : PaperEqvCaseless p q)
    (hk : List.Forall₂ (List.Forall₂ EqvCaseless) kgs₁ kgs₂) :
    paperMatches kgs₁ search_title search_abstract sent_papers p
      = paperMatches kgs₂ search_title search_abstract sent_papers q := by
  unfold paperMatches
  rw [hpq.1, searchTextOf_congr p q search_title search_abstract hpq,
    groupsAny_congr _ _ _ hk]

/-- Claim C4: matching is unaffected by case.  If two runs differ only
in the letter-casing of titles, abstracts, or keywords, the same papers
(by identifier) are matched. -/
theorem search_papers_case_insensitive
    (papers₁ papers₂ : List Paper) (kgs₁ kgs₂ : List (List String))
    (search_title search_abstract : Bool) (sent_papers : Finset String)
    (hpapers : List.Forall₂ PaperEqvCaseless papers₁ papers₂)
    (hkgs : List.Forall₂ (List.Forall₂ EqvCaseless) kgs₁ kgs₂) :
    (search_papers papers₁ kgs₁ search_title search_abstract sent_papers).map Paper.id
      = (search_papers papers₂ kgs₂ search_title search_abstract sent_papers).map Paper.id := by
  rw [search_papers_eq_filter, search_papers_eq_filter]
  induction hpapers with
  | nil => rfl
  | @cons p q l₁ l₂ hpq _ ih =>
    rw [List.filter_cons, List.filter_cons,
      paperMatches_congr kgs₁ kgs₂ search_title search_abstract sent_papers p q hpq hkgs]
    by_cases hq : paperMatches kgs₂ search_title search_abstract sent_papers q = true
    · rw [if_pos hq, if_pos hq, List.map_cons, List.map_cons, ih, hpq.1]
    · rw [if_neg hq, if_neg hq]
      exact ih

/-- Witness for C4: the same paper and rules with permuted casing match
the same identifiers. -/
theorem search_papers_case_insensitive_witness :
    (search_papers [⟨"1", "Deep Learning for Robotics", "We Study RL"⟩]
        [["DEEP learning"]] true true ∅).map Paper.id
      = (search_papers [⟨"1", "DEEP LEARNING FOR ROBOTICS", "we study rl"⟩]
        [["deep LEARNING"]] true true ∅).map Paper.id :=
  search_papers_case_insensitive _ _ _ _ _ _ _
    (List.Forall₂.cons ⟨rfl, by decide, by decide⟩ List.Forall₂.nil)
    (List.Forall₂.cons (List.Forall₂.cons (by decide) List.Forall₂.nil) List.Forall₂.nil)

/-- `search_papers` with its surrounding run state made explicit: the
fold threads the pair (`matched_papers`, `sent_papers`); the loop reads
the seen set through membership tests and never writes it. -/
def search_papers_run (papers : List Paper) (keyword_groups : List (List String))
    (search_title search_abstract : Bool) (sent_papers : Finset String) :
    List Paper × Finset String :=
  papers.foldl (fun state paper =>
    if paper.id ∈ state.2 then
      state
    else if !search_title && !search_abstract then
      state
    else
      let search_text := searchTextOf paper search_title search_abstract
      if keyword_groups.any fun keyword_group =>
          keyword_group.all fun keyword => strContains search_text (strLower keyword) then
        (state.1 ++ [paper], state.2)
      else
        state) ([], sent_papers)

/-- A fold whose step leaves the second component of the state fixed
returns that component unchanged next to the fold of the first. -/
theorem foldl_snd_invariant {β τ σ : Type} (s : σ) (f : τ × σ → β → τ × σ)
    (g : τ → β → τ) (hf : ∀ t b, f (t, s) b = (g t b, s)) :
    ∀ (l : List β) (t : τ), l.foldl f (t, s) = (l.foldl g t, s) := by
  intro l
  induction l with
  | nil => intro t; rfl
  | cons b l ih =>
    intro t
    rw [List.foldl_cons, List.foldl_cons, hf, ih]

/-- Claim C9: `search_papers` is deterministic and side-effect free:
the run with explicit state returns exactly the pure function of the
inputs together with the seen set it was given, unchanged. -/
theorem search_papers_pure (papers : List Paper)
    (keyword_groups : List (List String)) (search_title search_abstract : Bool)
    (sent_papers : Finset String) :
    search_papers_run papers keyword_groups search_title search_abstract sent_papers
      = (search_papers papers keyword_groups search_title search_abstract sent_papers,
         sent_papers) := by
  have hf : ∀ (matched_papers : List Paper) (paper : Paper),
      (fun (state : List Paper × Finset String) (paper : Paper) =>
        if paper.id ∈ state.2 then
          state
        else if !search_title && !search_abstract then
          state
        else
          let search_text := searchTextOf paper search_title search_abstract
          if keyword_groups.any fun keyword_group =>
              keyword_group.all fun keyword => strContains search_text (strLower keyword) then
            (state.1 ++ [paper], state.2)
          else
            state) (matched_papers, sent_papers) paper
      = ((fun (matched_papers : List Paper) (paper : Paper) =>
          if paper.id ∈ sent_papers then
            matched_papers
          else if !search_title && !search_abstract then
            matched_papers
          else
            let search_text := searchTextOf paper search_title search_abstract
            if keyword_groups.any fun keyword_group =>
                keyword_group.all fun keyword =>
                  strContains search_text (strLower keyword) then
              matched_papers ++ [paper]
            else
              matched_papers) matched_papers paper, sent_papers) := by
    intro matched_papers paper
    show (if paper.id ∈ sent_papers then
          (matched_papers, sent_papers)
        else if !search_title && !search_abstract then
          (matched_papers, sent_papers)
        else if keyword_groups.any fun keyword_group =>
            keyword_group.all fun keyword =>
              strContains (searchTextOf paper search_title search_abstract)
                (strLower keyword) then
          (matched_papers ++ [paper], sent_papers)
        else
          (matched_papers, sent_papers))
      = ((if paper.id ∈ sent_papers then
          matched_papers
        else if !search_title && !search_abstract then
          matched_papers
        else if keyword_groups.any fun keyword_group =>
            keyword_group.all fun keyword =>
              strContains (searchTextOf paper search_title search_abstract)
                (strLower keyword) then
          matched_papers ++ [paper]
        else
          matched_papers), sent_papers)
    by_cases h1 : paper.id ∈ sent_papers
    · simp [h1]
    · by_cases h2 : (!search_title && !search_abstract) = true
      · simp [h1, h2]
      · by_cases h3 : (keyword_groups.any fun keyword_group =>
            keyword_group.all fun keyword =>
              strContains (searchTextOf paper search_title search_abstract)
                (strLower keyword)) = true
        · simp [h1, h2, h3]
        · simp [h1, h2, h3]
  exact foldl_snd_invariant sent_papers _ _ hf papers []

/-- A JSON value as produced by Python's `json.load`.  An `obj` models
the resulting `dict`, so its keys are the ones remaining after the JSON
parser resolves duplicate keys. -/
inductive Json where
  | null
  | bool (b : Bool)
  | num (n : Int)
  | str (s : String)
  | arr (items : List Json)
  | obj (entries : List (String × Json))

mutual

/-- Structural equality of JSON values, modelling Python `==` on the
parsed values (the Python corner case `True == 1` is not modelled; the
histories at issue hold strings). -/
def Json.beq : Json → Json → Bool
  | .null, .null => true
  | .bool a, .bool b => a == b
  | .num a, .num b => a == b
  | .str a, .str b => a == b
  | .arr as, .arr bs => Json.beqItems as bs
  | .obj as, .obj bs => Json.beqEntries as bs
  | _, _ => false

def Json.beqItems : List Json → List Json → Bool
  | [], [] => true
  | a :: as, b :: bs => Json.beq a b && Json.beqItems as bs
  | _, _ => false

def Json.beqEntries : List (String × Json) → List (String × Json) → Bool
  | [], [] => true
  | (k₁, v₁) :: as, (k₂, v₂) :: bs => k₁ == k₂ && Json.beq v₁ v₂ && Json.beqEntries as bs
  | _, _ => false

end

instance : BEq Json := ⟨Json.beq⟩

/-- The exceptions `load_sent_papers` can let escape or run into. -/
inductive PyError where
  | attributeError
  | typeError
deriving DecidableEq, Repr

/-- What the backing history file looks like to `load_sent_papers`:
missing, unreadable (opening or reading raises `IOError`), readable but
not JSON (`json.load` raises `JSONDecodeError`), or readable with a
parsed JSON value. -/
inductive FileState where
  | absent
  | unreadable
  | invalidJson
  | content (value : Json)

/-- Whether a JSON value is hashable in Python (lists and dicts are
not, so they cannot enter a `set`). -/
def Json.hashable : Json → Bool
  | .arr _ => false
  | .obj _ => false
  | _ => true

/-- Python's `set(v)` on a parsed JSON value `v`: iterating a string
yields its one-character substrings, a list yields its items (a
`TypeError` if one is unhashable), a dict yields its keys; `null`,
booleans and numbers are not iterable.  The resulting set is modelled
as the list of its elements with duplicates removed, keeping first
occurrences. -/
def pySetElems (v : Json) : Except PyError (List Json) :=
  match v with
  | .str s => .ok ((s.toList.map fun c => Json.str (String.mk [c])).eraseDups)
  | .arr items =>
    if items.all Json.hashable then .ok items.eraseDups else .error .typeError
  | .obj entries => .ok ((entries.map fun e => Json.str e.1).eraseDups)
  | _ => .error .typeError

/-- `load_sent_papers` from src/search.py (lines 11-30): an absent file
yields an empty set; `JSONDecodeError` and `IOError` are caught, logged
and yield an empty set; otherwise the code runs
`set(history.get('sent_papers', []))`, whose `.get` raises an uncaught
`AttributeError` when the parsed JSON is not an object. -/
def load_sent_papers (history_file : FileState) : Except PyError (List Json) :=
  match history_file with
  | .absent => .ok []
  | .unreadable => .ok []
  | .invalidJson => .ok []
  | .content value =>
    match value with
    | .obj entries => pySetElems ((List.lookup "sent_papers" entries).getD (.arr []))
    | _ => .error .attributeError

/-- Claim C6: `load_sent_papers` does return the empty set when the
file is absent, unreadable or not JSON; but it is not total: at a
readable history file holding the valid JSON text `[]`, the call
`history.get` raises an uncaught `AttributeError`, so the claim that no
error ever aborts the run fails on the code. -/
theorem load_sent_papers_raises_on_json_list :
    load_sent_papers FileState.absent = Except.ok []
    ∧ load_sent_papers FileState.unreadable = Except.ok []
    ∧ load_sent_papers FileState.invalidJson = Except.ok []
    ∧ load_sent_papers (FileState.content (Json.obj [("sent_papers",
        Json.arr [Json.str "2401.00001"])]))
      = Except.ok [Json.str "2401.00001"]
    ∧ load_sent_papers (FileState.content (Json.arr []))
      = Except.error PyError.attributeError :=
  ⟨rfl, rfl, rfl, rfl, rfl⟩

def hexDigit (n : Nat) : Char :=
  if n < 10 then Char.ofNat (48 + n) else Char.ofNat (87 + n)

def hex4 (n : Nat) : String :=
  String.mk [hexDigit (n / 4096 % 16), hexDigit (n / 256 % 16),
    hexDigit (n / 16 % 16), hexDigit (n % 16)]

/-- How Python's `json.dump` (with its default `ensure_ascii=True`)
writes one character of a string value. -/
def jsonEscapeChar (c : Char) : String :=
  if c = '"' then "\\\""
  else if c = '\\' then "\\\\"
  else if c = '\n' then "\\n"
  else if c = '\t' then "\\t"
  else if c = '\r' then "\\r"
  else if c = Char.ofNat 8 then "\\b"
  else if c = Char.ofNat 12 then "\\f"
  else if c.toNat < 32 ∨ c.toNat > 126 then
    if c.toNat < 65536 then "\\u" ++ hex4 c.toNat
    else
      "\\u" ++ hex4 (55296 + (c.toNat - 65536) / 1024)
        ++ "\\u" ++ hex4 (56320 + (c.toNat - 65536) % 1024)
  else String.mk [c]

/-- A JSON string literal as `json.dump` writes it. -/
def jsonQuote (s : String) : String :=
  "\"" ++ String.join (s.toList.map jsonEscapeChar) ++ "\""

/-- `sep.join pieces`. -/
def joinWithSep (sep : String) : List String → String
  | [] => ""
  | [s] => s
  | s :: rest => s ++ sep ++ joinWithSep sep rest

/-- The exact text `json.dump(history, f, indent=2)` produces in
`save_sent_papers` for `history = {'sent_papers': list(sent_papers),
'last_updated': now_iso}`: the two entries indented by two spaces, the
list items by four, an empty list kept inline. -/
def dumpHistory (sent_papers : List String) (now_iso : String) : String :=
  "\x7b\n  \"sent_papers\": "
    ++ (if sent_papers.isEmpty then "[]"
        else "[\n    " ++ joinWithSep ",\n    " (sent_papers.map jsonQuote) ++ "\n  ]")
    ++ ",\n  \"last_updated\": " ++ jsonQuote now_iso ++ "\n\x7d"

/-- Where an `IOError` strikes a run of `save_sent_papers`: at
`open(history_file, 'w')`, before the file is touched, or after
`written` characters of the serialization have been flushed. -/
inductive WriteFault where
  | atOpen
  | during (written : Nat)

/-- `save_sent_papers` from src/search.py (lines 32-53), modelled on
the resulting file content.  `previous_file` is the backing file before
the call and the first component of the result the file after it;
`sent_papers` is Python's iteration order of the set, `now_iso` the
value of `datetime.now().isoformat()`.  `open(history_file, 'w')`
truncates the file in place, `json.dump` then streams the serialized
text, and an `IOError` is caught and logged (second component `true`)
but not re-raised, leaving whatever prefix was flushed. -/
def save_sent_papers (previous_file : Option String) (sent_papers : List String)
    (now_iso : String) (fault : Option WriteFault) : Option String × Bool :=
  let serialized := dumpHistory sent_papers now_iso
  match fault with
  | none => (some serialized, false)
  | some WriteFault.atOpen => (previous_file, true)
  | some (WriteFault.during written) =>
    (some (String.mk (serialized.toList.take written)), true)

theorem occurs_append_left {needle a : String} (h : OccursAsSubstring needle a)
    (b : String) : OccursAsSubstring needle (a ++ b) := by
  obtain ⟨pre, post, rfl⟩ := h
  exact ⟨pre, post ++ b, String.append_assoc _ _ _⟩

theorem occurs_append_right {needle b : String} (a : String)
    (h : OccursAsSubstring needle b) : OccursAsSubstring needle (a ++ b) := by
  obtain ⟨pre, post, rfl⟩ := h
  exact ⟨a ++ pre, post, by simp [String.append_assoc]⟩

theorem occurs_joinWithSep (sep : String) (l : List String) (s : String)
    (h : s ∈ l) : OccursAsSubstring s (joinWithSep sep l) := by
  induction l with
  | nil => cases h
  | cons x rest ih =>
    cases rest with
    | nil =>
      rcases List.mem_singleton.mp h with rfl
      exact ⟨"", "", by
        simp only [joinWithSep]
        rw [String.empty_append, String.append_empty]⟩
    | cons y rest2 =>
      cases List.mem_cons.mp h with
      | inl heq =>
        subst heq
        exact ⟨"", sep ++ joinWithSep sep (y :: rest2), by
          simp only [joinWithSep]
          rw [String.empty_append, String.append_assoc]⟩
      | inr hmem =>
        exact occurs_append_right (x ++ sep) (ih hmem)

/-- Claim C7 (counterexample to the claim as stated): a write that
fails after one character is reported, but the file is left holding
that one character — neither the previously persisted history nor the
new one.  The previously persisted seen set is corrupted. -/
theorem save_sent_papers_corrupts_on_failure :
    (save_sent_papers (some (dumpHistory ["2401.00001"] "2024-01-01T00:00:00"))
        ["2401.00001", "2402.00002"] "2024-02-02T00:00:00"
        (some (WriteFault.during 1))).2 = true
    ∧ (save_sent_papers (some (dumpHistory ["2401.00001"] "2024-01-01T00:00:00"))
        ["2401.00001", "2402.00002"] "2024-02-02T00:00:00"
        (some (WriteFault.during 1))).1
      ≠ some (dumpHistory ["2401.00001"] "2024-01-01T00:00:00")
    ∧ (save_sent_papers (some (dumpHistory ["2401.00001"] "2024-01-01T00:00:00"))
        ["2401.00001", "2402.00002"] "2024-02-02T00:00:00"
        (some (WriteFault.during 1))).1
      ≠ some (dumpHistory ["2401.00001", "2402.00002"] "2024-02-02T00:00:00") := by
  refine ⟨rfl, ?_, ?_⟩ <;> decide

/-- Claim C7 (amended): `save_sent_papers` writes the full current
seen set plus a timestamp of the write (the serialization contains
every identifier and the timestamp), and a failed write is reported
(logged, not re-raised); but the write is not atomic: the file is
truncated and rewritten in place, so an `IOError` mid-write leaves a
prefix of the new serialization, not the previously persisted
history. -/
theorem save_sent_papers_spec :
    (∀ (previous_file : Option String) (sent_papers : List String) (now_iso : String),
      save_sent_papers previous_file sent_papers now_iso none
        = (some (dumpHistory sent_papers now_iso), false))
    ∧ (∀ (sent_papers : List String) (now_iso : String),
      OccursAsSubstring (jsonQuote now_iso) (dumpHistory sent_papers now_iso))
    ∧ (∀ (front back : List String) (now_iso paper_id : String),
      OccursAsSubstring (jsonQuote paper_id)
        (dumpHistory (front ++ paper_id :: back) now_iso))
    ∧ (∀ (previous_file : Option String) (sent_papers : List String)
        (now_iso : String) (fault : WriteFault),
      (save_sent_papers previous_file sent_papers now_iso (some fault)).2 = true)
    ∧ (∀ (previous_file : Option String) (sent_papers : List String)
        (now_iso : String) (written : Nat),
      (save_sent_papers previous_file sent_papers now_iso
          (some (WriteFault.during written))).1
        = some (String.mk ((dumpHistory sent_papers now_iso).toList.take written))) := by
  refine ⟨fun _ _ _ => rfl, ?_, ?_, ?_, fun _ _ _ _ => rfl⟩
  · intro sent_papers now_iso
    unfold dumpHistory
    exact ⟨_, "\n\x7d", rfl⟩
  · intro front back now_iso paper_id
    unfold dumpHistory
    have hne : ¬(front ++ paper_id :: back).isEmpty = true := by
      simp
    rw [if_neg hne]
    have h1 : OccursAsSubstring (jsonQuote paper_id)
        (joinWithSep ",\n    " ((front ++ paper_id :: back).map jsonQuote)) :=
      occurs_joinWithSep _ _ _ (List.mem_map_of_mem jsonQuote (by simp))
    exact occurs_append_left (occurs_append_left (occurs_append_left
      (occurs_append_right "\x7b\n  \"sent_papers\": "
        (occurs_append_left (occurs_append_right "[\n    " h1) "\n  ]"))
      ",\n  \"last_updated\": ") (jsonQuote now_iso)) "\n\x7d"
  · intro _ _ _ fault
    cases fault <;> rfl

-- Concrete behavior checks, including the scenarios of spec.md §8.
example : strContains "deep learning for robotics" "deep" = true := by decide
example : strContains "abc" "" = true := by decide
example : strContains "abc" "ac" = false := by decide
example : search_papers [⟨"1", "Deep Learning for Robotics", "We study RL"⟩]
    [["deep learning"], ["reinforcement", "robot"]] true true ∅ =
    [⟨"1", "Deep Learning for Robotics", "We study RL"⟩] := by decide
example : search_papers [⟨"1", "Deep Learning for Robotics", "We study RL"⟩]
    [["deep learning"]] true true {"1"} = [] := by decide
example : search_papers [⟨"2", "Graph Neural Networks", "x"⟩]
    [["deep learning"]] true false ∅ = [] := by decide
